import Mathlib

/-!
Verification of the sp1-hello-world repository: a shallow embedding of the
state-transition program (`program/src/main.rs`) and the proof-lifecycle
orchestrator (`script/src/bin/main.rs`), with theorems settling the claims
about them.

Machine integers are modelled as `Nat` with explicit bounds at the points
where 32-bit width matters; byte arrays (`[u8; 32]`) are `List Nat` whose
elements are bytes.
-/

/-- A 32-byte array (`Hash` / `[u8; 32]` in the source), modelled as a list
of byte values. -/
abbrev Hash32 := List Nat

/-- Modelled from the spec: `PublicValuesStruct` is defined in the workspace
crate `fibonacci_lib`, which is not under `src/`.  Per spec §3/§6 it is the
record `{n: uint32, a: uint32, b: uint32, root: bytes32}` in that fixed field
order; `program/src/main.rs:74` constructs exactly these four fields. -/
structure PublicValuesStruct where
  n : Nat
  a : Nat
  b : Nat
  root : Hash32
deriving DecidableEq

/-- Modelled from the spec: the `fibonacci` function lives in the workspace
crate `fibonacci_lib`, which is not under `src/`.  Spec §4.1 step 1:
`fibonacci(0) = (0,1)` with the Fibonacci recurrence, `a` preceding `b`;
both the program (`program/src/main.rs:28`) and the orchestrator's reference
check (`script/src/bin/main.rs:79`) call this same function. -/
def fibonacci : Nat → Nat × Nat
  | 0 => (0, 1)
  | k + 1 => ((fibonacci k).2, (fibonacci k).1 + (fibonacci k).2)

/-- The `AuthenticatedStore` capability of spec §4.2 (the `monotree` crate,
an external collaborator, not under `src/`).  `insert root key leaf` returns
the new root option exactly as the binding `root = tree.insert(...)` does in
`program/src/main.rs:60-62` (the `Result` layer is unwrapped there by
`expect`); `get root key` returns the value bound to `key` at `root`, or
`none` (in particular `get none key = none` on the empty lineage). -/
structure AuthStore where
  insert : Option Hash32 → Hash32 → Hash32 → Option Hash32
  get : Option Hash32 → Hash32 → Option Hash32

/-- The constant insertion key of `program/src/main.rs:55`: `[1; 32]`. -/
def progKey : Hash32 := List.replicate 32 1

/-- The leaf of `program/src/main.rs:56`: `[b as u8; 32]`, i.e. the byte
`b % 256` repeated 32 times (Rust `as u8` truncates to the low 8 bits). -/
def progLeaf (b : Nat) : Hash32 := List.replicate 32 (b % 256)

/-- One iteration of the insertion loop body of `program/src/main.rs:58-64`:
from an (un-aborted) loop state, call `insert` and enforce
`assert_ne!(root, None)`; a `none` result from the store aborts the run. -/
def insertStep (store : AuthStore) (key leaf : Hash32) :
    Option (Option Hash32) → Option (Option Hash32)
  | none => none
  | some root =>
    match store.insert root key leaf with
    | none => none
    | some r => some (some r)

/-- The insertion loop of `program/src/main.rs:58-64` run for `count`
iterations, starting from `root = None` (`program/src/main.rs:46`).  The
outer `Option` is abortion (a failed assertion), the inner one is the root. -/
def insertLoop (store : AuthStore) (key leaf : Hash32) : Nat → Option (Option Hash32)
  | 0 => some none
  | k + 1 => insertStep store key leaf (insertLoop store key leaf k)

/-- Big-endian 4-byte encoding of a `u32` value. -/
def be4 (x : Nat) : List Nat :=
  [x / 16777216 % 256, x / 65536 % 256, x / 256 % 256, x % 256]

/-- A 32-byte ABI word holding a `uint32`: 28 zero bytes of left padding
followed by the big-endian value. -/
def word32 (x : Nat) : List Nat := List.replicate 28 0 ++ be4 x

/-- Big-endian value of a 4-byte list. -/
def beToNat4 : List Nat → Nat
  | [x3, x2, x1, x0] => ((x3 * 256 + x2) * 256 + x1) * 256 + x0
  | _ => 0

/-- Value of a 32-byte ABI `uint32` word read back with validation: the 28
padding bytes must be zero (alloy's `abi_decode(..., true)`). -/
def decodeU32Word (w : List Nat) : Option Nat :=
  if w.take 28 = List.replicate 28 0 then some (beToNat4 (w.drop 28)) else none

/-- Modelled from the spec: `PublicValuesStruct::abi_encode` comes from
`alloy_sol_types` via `fibonacci_lib`, neither under `src/`.  Spec §6: a
canonical ABI tuple encoding of `(n: uint32, a: uint32, b: uint32,
root: bytes32)`, fixed field order and widths — three 32-byte left-padded
big-endian words followed by the raw 32 root bytes (128 bytes total). -/
def PublicValuesStruct.abi_encode (pv : PublicValuesStruct) : List Nat :=
  word32 pv.n ++ word32 pv.a ++ word32 pv.b ++ pv.root

/-- Modelled from the spec: `PublicValuesStruct::abi_decode(bytes, true)`
(validating decode), the inverse reading of the same 128-byte layout, used at
`script/src/bin/main.rs:72` and `:122`. -/
def PublicValuesStruct.abi_decode (bs : List Nat) : Option PublicValuesStruct :=
  if bs.length = 128 then
    (decodeU32Word (bs.take 32)).bind fun n =>
      (decodeU32Word ((bs.drop 32).take 32)).bind fun a =>
        (decodeU32Word (((bs.drop 32).drop 32).take 32)).bind fun b =>
          some ⟨n, a, b, ((bs.drop 32).drop 32).drop 32⟩
  else none

/-- Shallow embedding of `main` in `program/src/main.rs`, parameterized by
the authenticated-store capability.  In order: read `n` and `offset`
(lines 23-25), compute `fibonacci(n)` (line 28), apply the offset (line 31;
overflow aborts the run — modelled from the spec §4.1 step 2, the
`overflow-checks` build profile not being under `src/`), run the insertion
loop (lines 58-64), perform the unconditional `get` self-check
`assert_eq!(found, Some(leaf))` (lines 67-68), unwrap the root (line 70),
and return the public-values record of line 74.  `none` is an aborted run
that commits nothing. -/
def programRun (store : AuthStore) (n offset : Nat) : Option PublicValuesStruct :=
  if (fibonacci n).1 + offset < 4294967296 ∧ (fibonacci n).2 + offset < 4294967296 then
    match insertLoop store progKey (progLeaf ((fibonacci n).2 + offset)) offset with
    | none => none
    | some root =>
      if store.get root progKey = some (progLeaf ((fibonacci n).2 + offset)) then
        match root with
        | some r =>
          some ⟨n, (fibonacci n).1 + offset, (fibonacci n).2 + offset, r⟩
        | none => none
      else none
  else none

/-- The bytes the program commits via `commit_slice` (`program/src/main.rs:74-78`):
the ABI encoding of the public values, or nothing when the run aborts. -/
def programCommit (store : AuthStore) (n offset : Nat) : Option (List Nat) :=
  (programRun store n offset).map PublicValuesStruct.abi_encode

/-- The execute-mode cross-check of `script/src/bin/main.rs:72-81`: decode
the committed bytes, recompute `fibonacci` at the decoded `n`, and check
`a == expected_a + offset` and `b == expected_b + offset`. -/
def executeCheck (output : List Nat) (offset : Nat) : Bool :=
  match PublicValuesStruct.abi_decode output with
  | some pv =>
    decide (pv.a = (fibonacci pv.n).1 + offset) &&
      decide (pv.b = (fibonacci pv.n).2 + offset)
  | none => false

/-- Observable steps of the orchestrator `main` (`script/src/bin/main.rs:44-126`),
in program order. -/
inductive Effect where
  | setupLogger
  | parseArgs
  | printError
  | exitNonZero
  | newProverClient
  | writeStdin
  | executeWork
  | generateWork
  | verifyWork
deriving DecidableEq

/-- Whether an orchestrator step is the work of one of the three modes. -/
def isModeWork : Effect → Bool
  | .executeWork => true
  | .generateWork => true
  | .verifyWork => true
  | _ => false

/-- Trace of `main` in `script/src/bin/main.rs` as a function of the three
mode flags: logger setup and argument parsing (lines 46-49), then the
no-mode check of lines 51-54 (diagnostic plus `exit(1)` before any prover
client exists), else client construction and stdin writes (lines 57-62)
followed by the `if/else if` mode dispatch of lines 66-125. -/
def scriptTrace (e g v : Bool) : List Effect :=
  if !e && !g && !v then
    [.setupLogger, .parseArgs, .printError, .exitNonZero]
  else
    [.setupLogger, .parseArgs, .newProverClient, .writeStdin] ++
      (if e then [.executeWork]
       else if g then [.generateWork]
       else if v then [.verifyWork]
       else [])

/-- Exit status of the orchestrator's flag check: `1` via `process::exit(1)`
when no mode flag is set (`script/src/bin/main.rs:53`), `0` otherwise. -/
def scriptExitCode (e g v : Bool) : Nat :=
  if !e && !g && !v then 1 else 0

/-- Observable steps of generate mode (`script/src/bin/main.rs:86-99`). -/
inductive GenEffect where
  | setupKeys
  | proveCalled
  | printProof
  | writeArtifact
  | panicked
deriving DecidableEq

/-- Trace of generate mode as a function of the prover's outcome
(`script/src/bin/main.rs:86-99`): `setup`, then `prove(...).expect(...)` —
on failure the `expect` panics and nothing else runs; on success the proof
is printed and `save_proof_to_json` writes `proof.json` (lines 129-141). -/
def generateTrace (proveResult : Option (List Nat)) : List GenEffect :=
  match proveResult with
  | none => [.setupKeys, .proveCalled, .panicked]
  | some _ => [.setupKeys, .proveCalled, .printProof, .writeArtifact]

/-- A minimal model of the `AuthenticatedStore` capability used to witness
the store-generic theorems: the root is simply the last value written, so
`insert` always succeeds with root `v` and `get` returns the root itself
(`none` on the empty lineage, as `monotree` does).  It satisfies the §4.2
contract fragment the claims rely on: the value just inserted is readable
back, and re-inserting an already-bound pair returns the root unchanged. -/
def echoStore : AuthStore where
  insert := fun _ _ v => some v
  get := fun root _ => root

/-! ## Helper lemmas -/

theorem word32_length (x : Nat) : (word32 x).length = 32 := by
  simp [word32, be4]

theorem beToNat4_be4 (x : Nat) (hx : x < 4294967296) : beToNat4 (be4 x) = x := by
  simp only [be4, beToNat4]
  omega

theorem decodeU32Word_word32 (x : Nat) (hx : x < 4294967296) :
    decodeU32Word (word32 x) = some x := by
  unfold decodeU32Word word32
  rw [List.take_left' (by simp), List.drop_left' (by simp)]
  rw [if_pos rfl]
  rw [beToNat4_be4 x hx]

theorem abi_encode_decode (pv : PublicValuesStruct)
    (hn : pv.n < 4294967296) (ha : pv.a < 4294967296) (hb : pv.b < 4294967296)
    (hroot : pv.root.length = 32) :
    PublicValuesStruct.abi_decode (PublicValuesStruct.abi_encode pv) = some pv := by
  have hlen : (PublicValuesStruct.abi_encode pv).length = 128 := by
    simp [PublicValuesStruct.abi_encode, word32, be4, hroot]
  unfold PublicValuesStruct.abi_decode
  rw [if_pos hlen]
  rw [show PublicValuesStruct.abi_encode pv
      = word32 pv.n ++ (word32 pv.a ++ (word32 pv.b ++ pv.root)) from rfl]
  rw [List.take_left' (word32_length pv.n), List.drop_left' (word32_length pv.n),
    List.take_left' (word32_length pv.a), List.drop_left' (word32_length pv.a),
    List.take_left' (word32_length pv.b), List.drop_left' (word32_length pv.b),
    decodeU32Word_word32 _ hn, decodeU32Word_word32 _ ha, decodeU32Word_word32 _ hb]
  rfl

theorem insertStep_eq_some {store : AuthStore} {key leaf : Hash32}
    {x : Option (Option Hash32)} {ρ : Option Hash32}
    (h : insertStep store key leaf x = some ρ) :
    (∃ y, x = some y) ∧ ρ ≠ none := by
  cases x with
  | none => simp [insertStep] at h
  | some y =>
    refine ⟨⟨y, rfl⟩, ?_⟩
    cases hy : store.insert y key leaf with
    | none => simp [insertStep, hy] at h
    | some r =>
      simp only [insertStep, hy, Option.some.injEq] at h
      subst h
      simp

theorem insertLoop_add_some {store : AuthStore} {key leaf : Hash32} :
    ∀ (j i : Nat) {ρ : Option Hash32}, insertLoop store key leaf (i + j) = some ρ →
      ∃ ρ', insertLoop store key leaf i = some ρ' := by
  intro j
  induction j with
  | zero => intro i ρ h; exact ⟨ρ, h⟩
  | succ k ih =>
    intro i ρ h
    have hk : insertLoop store key leaf (i + (k + 1))
        = insertStep store key leaf (insertLoop store key leaf (i + k)) := rfl
    rw [hk] at h
    obtain ⟨⟨y, hy⟩, -⟩ := insertStep_eq_some h
    exact ih i hy

theorem insertLoop_pos_ne_none {store : AuthStore} {key leaf : Hash32}
    {k : Nat} {ρ : Option Hash32} (hk : 1 ≤ k)
    (h : insertLoop store key leaf k = some ρ) : ρ ≠ none := by
  obtain ⟨m, rfl⟩ : ∃ m, k = m + 1 := ⟨k - 1, by omega⟩
  exact (insertStep_eq_some h).2

theorem programRun_eq_some {store : AuthStore} {n offset : Nat} {pv : PublicValuesStruct}
    (h : programRun store n offset = some pv) :
    pv.n = n ∧ pv.a = (fibonacci n).1 + offset ∧ pv.b = (fibonacci n).2 + offset ∧
    pv.a < 4294967296 ∧ pv.b < 4294967296 ∧
    insertLoop store progKey (progLeaf ((fibonacci n).2 + offset)) offset = some (some pv.root) ∧
    store.get (some pv.root) progKey = some (progLeaf ((fibonacci n).2 + offset)) := by
  unfold programRun at h
  split at h
  case isFalse => cases h
  case isTrue hlt =>
    split at h
    case h_1 => cases h
    case h_2 root hloop =>
      split at h
      case isFalse => cases h
      case isTrue hget =>
        split at h
        case h_2 => cases h
        case h_1 r =>
          cases h
          exact ⟨rfl, rfl, rfl, hlt.1, hlt.2, hloop, hget⟩

theorem echoStore_get_after_insert (ρ : Option Hash32) (r key value : Hash32)
    (h : echoStore.insert ρ key value = some r) :
    echoStore.get (some r) key = some value := by
  simp only [echoStore, Option.some.injEq] at h
  simp [echoStore, h]

theorem echoStore_insert_idem (ρ key value : Hash32)
    (h : echoStore.get (some ρ) key = some value) :
    echoStore.insert (some ρ) key value = some ρ := by
  simp only [echoStore, Option.some.injEq] at h
  simp [echoStore, h]

/-! ## Claims -/

/-- C1: the spec claims that with `offset == 0` the insertion loop body never
executes, the `AuthenticatedStore.get` self-check is skipped (performed only
when `offset > 0`), and the run completes with `root` absent.  The code
disagrees: the self-check of `program/src/main.rs:67-68` and the
`root.unwrap()` of line 70 run unconditionally, so on any store whose `get`
on the empty (`None`) root returns `None` — as `monotree`'s does — every
`offset = 0` run (in particular the defaults `n = 20, offset = 0`) aborts
and commits no public output at all. -/
theorem c1_offset_zero_aborts (store : AuthStore)
    (hempty : store.get none progKey = none) (n : Nat) :
    programCommit store n 0 = none := by
  unfold programCommit programRun
  split
  case isFalse => rfl
  case isTrue h =>
    simp only [insertLoop, hempty]
    simp

theorem c1_witness : programCommit echoStore 20 0 = none :=
  c1_offset_zero_aborts echoStore rfl 20

/-- C2: whenever a run completes, the committed `a` and `b` are exactly the
reference `fibonacci(n)` values plus `offset`, and the execute-mode
cross-check of `script/src/bin/main.rs:79-81` (which recomputes the same
`fibonacci` at the decoded `n`) accepts the committed output. -/
theorem c2_additive_offset (store : AuthStore) (n offset : Nat)
    (pv : PublicValuesStruct) (h : programRun store n offset = some pv)
    (hn : n < 4294967296) (hroot : pv.root.length = 32) :
    pv.a = (fibonacci n).1 + offset ∧ pv.b = (fibonacci n).2 + offset ∧
    executeCheck (PublicValuesStruct.abi_encode pv) offset = true := by
  obtain ⟨hpn, hpa, hpb, ha32, hb32, -, -⟩ := programRun_eq_some h
  refine ⟨hpa, hpb, ?_⟩
  have hdec : PublicValuesStruct.abi_decode (PublicValuesStruct.abi_encode pv) = some pv :=
    abi_encode_decode pv (by rw [hpn]; exact hn) ha32 hb32 hroot
  unfold executeCheck
  rw [hdec]
  simp [hpn, hpa, hpb]

theorem c2_witness :
    programRun echoStore 10 5 = some ⟨10, 60, 94, List.replicate 32 94⟩ ∧
    ((⟨10, 60, 94, List.replicate 32 94⟩ : PublicValuesStruct).a = (fibonacci 10).1 + 5 ∧
      (⟨10, 60, 94, List.replicate 32 94⟩ : PublicValuesStruct).b = (fibonacci 10).2 + 5 ∧
      executeCheck (PublicValuesStruct.abi_encode ⟨10, 60, 94, List.replicate 32 94⟩) 5 = true) :=
  ⟨by decide,
    c2_additive_offset echoStore 10 5 ⟨10, 60, 94, List.replicate 32 94⟩ (by decide)
      (by decide) (by decide)⟩

/-- C3: the four-field ABI tuple encoding `(n: uint32, a: uint32, b: uint32,
root: bytes32)` round-trips: decoding an encoded record recovers it exactly,
for any field values in range, including all-zero and all-`0xFF` roots.
(The producer/consumer agreement half of the claim fails on the code:
`program/src/main.rs:74` builds the four-field record, while the consumers at
`script/src/bin/main.rs:73` and `:123` destructure only `{n, a, b}`.) -/
theorem c3_abi_roundtrip (pv : PublicValuesStruct)
    (hn : pv.n < 4294967296) (ha : pv.a < 4294967296) (hb : pv.b < 4294967296)
    (hroot : pv.root.length = 32) :
    PublicValuesStruct.abi_decode (PublicValuesStruct.abi_encode pv) = some pv :=
  abi_encode_decode pv hn ha hb hroot

theorem c3_witness :
    PublicValuesStruct.abi_decode
        (PublicValuesStruct.abi_encode ⟨0, 0, 0, List.replicate 32 0⟩)
      = some ⟨0, 0, 0, List.replicate 32 0⟩ ∧
    PublicValuesStruct.abi_decode
        (PublicValuesStruct.abi_encode
          ⟨4294967295, 4294967295, 4294967295, List.replicate 32 255⟩)
      = some ⟨4294967295, 4294967295, 4294967295, List.replicate 32 255⟩ :=
  ⟨c3_abi_roundtrip ⟨0, 0, 0, List.replicate 32 0⟩
      (by decide) (by decide) (by decide) (by decide),
    c3_abi_roundtrip ⟨4294967295, 4294967295, 4294967295, List.replicate 32 255⟩
      (by decide) (by decide) (by decide) (by decide)⟩

/-- C4: if applying the offset overflows the unsigned 32-bit output width in
either component, the transition program aborts and commits no public
output; an overflowed value is never wrapped into a committed record. -/
theorem c4_overflow_aborts (store : AuthStore) (n offset : Nat)
    (h : 4294967296 ≤ (fibonacci n).1 + offset ∨
      4294967296 ≤ (fibonacci n).2 + offset) :
    programCommit store n offset = none := by
  unfold programCommit programRun
  rw [if_neg (by omega)]
  rfl

theorem c4_witness : programCommit echoStore 2 4294967294 = none :=
  c4_overflow_aborts echoStore 2 4294967294 (Or.inr (by decide))

/-- C5: for every run that completes, the insertion loop starts from the
`None` root, performs exactly `offset` iterations of `insert` — one
`insertStep` per count, with the constant key `[1; 32]` and a leaf derived
from `b'` only — every prefix of the loop completes, and after every insert
call the resulting root is non-`None`. -/
theorem c5_loop_structure (store : AuthStore) (n offset : Nat)
    (pv : PublicValuesStruct) (h : programRun store n offset = some pv) :
    progKey = List.replicate 32 1 ∧
    progLeaf ((fibonacci n).2 + offset)
      = List.replicate 32 (((fibonacci n).2 + offset) % 256) ∧
    insertLoop store progKey (progLeaf ((fibonacci n).2 + offset)) 0 = some none ∧
    (∀ k, insertLoop store progKey (progLeaf ((fibonacci n).2 + offset)) (k + 1)
      = insertStep store progKey (progLeaf ((fibonacci n).2 + offset))
          (insertLoop store progKey (progLeaf ((fibonacci n).2 + offset)) k)) ∧
    (∀ k, k ≤ offset →
      ∃ ρ, insertLoop store progKey (progLeaf ((fibonacci n).2 + offset)) k = some ρ) ∧
    (∀ k ρ, 1 ≤ k →
      insertLoop store progKey (progLeaf ((fibonacci n).2 + offset)) k = some ρ →
      ρ ≠ none) := by
  obtain ⟨-, -, -, -, -, hloop, -⟩ := programRun_eq_some h
  refine ⟨rfl, rfl, rfl, fun k => rfl, ?_, ?_⟩
  · intro k hk
    have hpref : insertLoop store progKey (progLeaf ((fibonacci n).2 + offset))
        (k + (offset - k)) = some (some pv.root) := by
      rw [show k + (offset - k) = offset by omega]
      exact hloop
    exact insertLoop_add_some (offset - k) k hpref
  · intro k ρ hk hρ
    exact insertLoop_pos_ne_none hk hρ

theorem c5_witness :
    programRun echoStore 1 3 = some ⟨1, 4, 4, List.replicate 32 4⟩ ∧
    (∀ k, k ≤ 3 →
      ∃ ρ, insertLoop echoStore progKey (progLeaf ((fibonacci 1).2 + 3)) k = some ρ) ∧
    (∀ k ρ, 1 ≤ k →
      insertLoop echoStore progKey (progLeaf ((fibonacci 1).2 + 3)) k = some ρ →
      ρ ≠ none) :=
  ⟨by decide,
    (c5_loop_structure echoStore 1 3 ⟨1, 4, 4, List.replicate 32 4⟩ (by decide)).2.2.2.2.1,
    (c5_loop_structure echoStore 1 3 ⟨1, 4, 4, List.replicate 32 4⟩ (by decide)).2.2.2.2.2⟩

/-- C6: assuming the §4.2 store contract — the value just inserted under a
key is readable back (`h1`), and re-inserting an already-bound `(key, value)`
pair returns the input root unchanged (`h2`) — the loop state after any
`offset ≥ 1` iterations equals the state after exactly one insertion into
the empty (`None`) root. -/
theorem c6_idempotent_reinsertion (store : AuthStore) (key value : Hash32)
    (h1 : ∀ ρ r, store.insert ρ key value = some r →
      store.get (some r) key = some value)
    (h2 : ∀ ρ, store.get (some ρ) key = some value →
      store.insert (some ρ) key value = some ρ)
    (offset : Nat) (hoff : 1 ≤ offset) :
    insertLoop store key value offset = insertLoop store key value 1 := by
  induction offset with
  | zero => omega
  | succ k ih =>
    rcases Nat.eq_zero_or_pos k with h0 | hk
    · subst h0; rfl
    · have hk1 := ih hk
      show insertStep store key value (insertLoop store key value k)
        = insertLoop store key value 1
      rw [hk1]
      show insertStep store key value (insertStep store key value (some none))
        = insertStep store key value (some none)
      cases hins : store.insert none key value with
      | none => simp [insertStep, hins]
      | some r =>
        have hget := h1 none r hins
        have hidem := h2 r hget
        simp [insertStep, hins, hidem]

theorem c6_witness :
    (1 : Nat) ≤ 5 ∧
    insertLoop echoStore progKey (progLeaf 7) 5
      = insertLoop echoStore progKey (progLeaf 7) 1 :=
  ⟨by decide,
    c6_idempotent_reinsertion echoStore progKey (progLeaf 7)
      (fun ρ r h => echoStore_get_after_insert ρ r progKey (progLeaf 7) h)
      (fun ρ h => echoStore_insert_idem ρ progKey (progLeaf 7) h)
      5 (by decide)⟩

/-- C7: a single orchestrator invocation performs the work of at most one of
the three modes (`execute`, `generate`, `verify`), for every combination of
the mode flags. -/
theorem c7_modes_mutually_exclusive :
    ∀ e g v : Bool, (scriptTrace e g v).countP isModeWork ≤ 1 := by
  decide

/-- C8: with no mode flag supplied, the orchestrator prints a diagnostic and
exits with status 1 immediately after argument parsing: no prover client is
constructed and no mode work is performed. -/
theorem c8_no_mode_input_error :
    scriptTrace false false false
      = [Effect.setupLogger, Effect.parseArgs, Effect.printError, Effect.exitNonZero] ∧
    (scriptTrace false false false).count Effect.newProverClient = 0 ∧
    (scriptTrace false false false).countP isModeWork = 0 ∧
    scriptExitCode false false false = 1 := by
  decide

/-- C9: in generate mode the artifact file is written only after `prove`
succeeds: a failing prove call panics before `save_proof_to_json`, leaving
no (partial) artifact write in the trace, and any trace that does contain
the artifact write comes from a successful prove result. -/
theorem c9_write_after_success :
    generateTrace none
      = [GenEffect.setupKeys, GenEffect.proveCalled, GenEffect.panicked] ∧
    (generateTrace none).count GenEffect.writeArtifact = 0 ∧
    (∀ pr : Option (List Nat),
      GenEffect.writeArtifact ∈ generateTrace pr → ∃ p, pr = some p) := by
  refine ⟨rfl, rfl, ?_⟩
  intro pr h
  cases pr with
  | none => exact absurd h (by decide)
  | some p => exact ⟨p, rfl⟩

theorem c9_witness :
    GenEffect.writeArtifact ∈ generateTrace (some [0]) ∧
    ∃ p, (some [0] : Option (List Nat)) = some p :=
  ⟨by decide, c9_write_after_success.2.2 (some [0]) (by decide)⟩

/-- C10: the inserted leaf keeps only the low 8 bits of `b'` (it is the byte
`b' % 256` repeated 32 times), so two runs with the same `offset ≥ 1` whose
offset-adjusted `b'` values agree modulo 256 use identical leaf arrays, have
identical insertion loops, and commit identical roots — even when their
public `b` values differ. -/
theorem c10_leaf_truncation (store : AuthStore) (n1 n2 offset : Nat)
    (hoff : 1 ≤ offset)
    (hcong : ((fibonacci n1).2 + offset) % 256 = ((fibonacci n2).2 + offset) % 256) :
    progLeaf ((fibonacci n1).2 + offset) = progLeaf ((fibonacci n2).2 + offset) ∧
    insertLoop store progKey (progLeaf ((fibonacci n1).2 + offset)) offset
      = insertLoop store progKey (progLeaf ((fibonacci n2).2 + offset)) offset ∧
    (∀ pv1 pv2, programRun store n1 offset = some pv1 →
      programRun store n2 offset = some pv2 → pv1.root = pv2.root) := by
  have hleaf : progLeaf ((fibonacci n1).2 + offset)
      = progLeaf ((fibonacci n2).2 + offset) := by
    unfold progLeaf
    rw [hcong]
  refine ⟨hleaf, by rw [hleaf], ?_⟩
  intro pv1 pv2 h1 h2
  obtain ⟨-, -, -, -, -, hl1, -⟩ := programRun_eq_some h1
  obtain ⟨-, -, -, -, -, hl2, -⟩ := programRun_eq_some h2
  rw [hleaf] at hl1
  rw [hl1] at hl2
  exact Option.some.inj (Option.some.inj hl2)

theorem c10_witness :
    (fibonacci 4).2 + 1 = 6 ∧ (fibonacci 31).2 + 1 = 2178310 ∧
    (6 : Nat) ≠ 2178310 ∧
    progLeaf ((fibonacci 4).2 + 1) = progLeaf ((fibonacci 31).2 + 1) ∧
    insertLoop echoStore progKey (progLeaf ((fibonacci 4).2 + 1)) 1
      = insertLoop echoStore progKey (progLeaf ((fibonacci 31).2 + 1)) 1 ∧
    (∀ pv1 pv2, programRun echoStore 4 1 = some pv1 →
      programRun echoStore 31 1 = some pv2 → pv1.root = pv2.root) :=
  ⟨by decide, by decide, by decide,
    (c10_leaf_truncation echoStore 4 31 1 (by decide) (by decide)).1,
    (c10_leaf_truncation echoStore 4 31 1 (by decide) (by decide)).2.1,
    (c10_leaf_truncation echoStore 4 31 1 (by decide) (by decide)).2.2⟩
